import Mathlib

/-!
Verification of the SEC fails-to-deliver transform-and-merge pipeline
(`build_data.py`): the line repairer (`Cleaner.fix_lines`), the equity
identifier filter (`Cleaner.is_equity_cusip`), the semimonthly period
mapper (`Cleaner.offset_date`), the per-file aggregation step
(`Aggregator.run`, per input file) and the period-archive merge step
(read back, concatenate, drop duplicates, format, rewrite).

Python strings are modelled as Lean `String`s, pandas numeric values as
exact rationals (`Rat`); a Python float's binary rounding is not modelled
(no property below depends on it).  Fallible steps return `Option`, with
`none` standing for an exception escaping the modelled code.
-/

namespace SecFtd

/-- Drop whitespace from both ends of a character list. -/
def trimL (cs : List Char) : List Char :=
  ((cs.dropWhile Char.isWhitespace).reverse.dropWhile Char.isWhitespace).reverse

/-- Python `str.strip()` on the whitespace occurring in these files
(space, tab, carriage return, newline). -/
def strip (s : String) : String := String.mk (trimL s.data)

/-- Split a character list on a separator character, keeping empty
pieces (Python `str.split(sep)`): the empty list yields one empty
piece. -/
def splitOnChar (sep : Char) : List Char → List (List Char)
  | [] => [[]]
  | c :: t =>
    match splitOnChar sep t with
    | h :: r => if c == sep then [] :: h :: r else (c :: h) :: r
    | [] => [[c]]

/-- Python `s.split(sep)` for a one-character separator. -/
def splitOnS (sep : Char) (s : String) : List String :=
  (splitOnChar sep s.data).map String.mk

/-- Normalize the line endings `\r\n` and `\r` to `\n`. -/
def normNl : List Char → List Char
  | [] => []
  | '\r' :: '\n' :: t => '\n' :: normNl t
  | '\r' :: t => '\n' :: normNl t
  | c :: t => c :: normNl t

/-- Python `str.splitlines()` for the line endings occurring in text
files: `\n`, `\r\n` and `\r`.  A trailing line terminator opens no extra
empty line, and the empty string has no lines. -/
def splitlines (s : String) : List String :=
  match s.data with
  | [] => []
  | cs =>
    let t := normNl cs
    let parts := (splitOnChar '\n' t).map String.mk
    if t.getLastD ' ' == '\n' then parts.dropLast else parts

/-- Python `str.upper()` on ASCII text. -/
def toUpperS (s : String) : String := String.mk (s.data.map Char.toUpper)

/-- Python `str.lower()` on ASCII text. -/
def toLowerS (s : String) : String := String.mk (s.data.map Char.toLower)

/-- The value of a list of decimal digit characters. -/
def digitsVal (cs : List Char) : Nat :=
  cs.foldl (fun a c => a * 10 + (c.toNat - 48)) 0

/-- All characters are decimal digits and there is at least one. -/
def isDigits (cs : List Char) : Bool :=
  !cs.isEmpty && cs.all Char.isDigit

/-- Left-pad a natural number with zeros to the given width
(`strftime` zero padding). -/
def zfill (w n : Nat) : String :=
  let s := toString n
  String.mk (List.replicate (w - s.length) '0') ++ s

/-! ## Calendar dates -/

/-- A calendar date (pandas `Timestamp` at midnight). -/
structure Date where
  year : Nat
  month : Nat
  day : Nat
deriving DecidableEq, Repr

/-- Gregorian leap year. -/
def isLeap (y : Nat) : Bool :=
  (y % 4 == 0 && y % 100 != 0) || y % 400 == 0

/-- The number of days of a month. -/
def daysInMonth (y m : Nat) : Nat :=
  if m == 2 then (if isLeap y then 29 else 28)
  else if m == 4 || m == 6 || m == 9 || m == 11 then 30
  else 31

/-- `pd.to_datetime(s, format="%Y%m%d", errors="coerce")` on one trimmed
field: eight decimal digits making a valid calendar date, else missing
(`NaT`).  (The `Timestamp` range bound near year 2262 is not modelled;
every date the pipeline accepts is far below it.) -/
def parseDate (s : String) : Option Date :=
  let cs := s.data
  if cs.length = 8 ∧ cs.all Char.isDigit then
    let y := digitsVal (cs.take 4)
    let m := digitsVal ((cs.drop 4).take 2)
    let d := digitsVal (cs.drop 6)
    if 1 ≤ y ∧ 1 ≤ m ∧ m ≤ 12 ∧ 1 ≤ d ∧ d ≤ daysInMonth y m then some ⟨y, m, d⟩
    else none
  else none

/-- Chronological order on dates (year, then month, then day). -/
def dateLe (a b : Date) : Bool :=
  if a.year ≠ b.year then decide (a.year < b.year)
  else if a.month ≠ b.month then decide (a.month < b.month)
  else decide (a.day ≤ b.day)

/-- `d.strftime("%Y%m%d")`. -/
def fmtYmd (d : Date) : String :=
  zfill 4 d.year ++ zfill 2 d.month ++ zfill 2 d.day

/-- pandas `d + MonthEnd(0)`: roll forward to the month-end anchor,
staying put when already on it. -/
def monthEnd0 (d : Date) : Date :=
  if d.day == daysInMonth d.year d.month then d
  else ⟨d.year, d.month, daysInMonth d.year d.month⟩

/-- pandas `d + MonthBegin(1)`: the first day of the following month
(the next month-begin anchor, or one month on when already on one). -/
def monthBegin1 (d : Date) : Date :=
  if d.month == 12 then ⟨d.year + 1, 1, 1⟩ else ⟨d.year, d.month + 1, 1⟩

/-- `Timestamp.replace(day=k)`. -/
def replaceDay (d : Date) (k : Nat) : Date :=
  ⟨d.year, d.month, k⟩

/-- `Cleaner.offset_date` on a present date:
`(d + MonthEnd(0)) if d.day <= 15 else (d + MonthBegin(1)).replace(day=15)`. -/
def offset_date (d : Date) : Date :=
  if d.day ≤ 15 then monthEnd0 d else replaceDay (monthBegin1 d) 15

/-! ## Numeric coercion -/

/-- The integer under an optional leading sign, together with whether the
digits were well-formed. -/
def signedDigits (cs : List Char) : Option Int :=
  match cs with
  | '-' :: t => if isDigits t then some (-(digitsVal t : Int)) else none
  | '+' :: t => if isDigits t then some (digitsVal t : Int) else none
  | t => if isDigits t then some (digitsVal t : Int) else none

/-- An unsigned decimal mantissa, `d+`, `d+.d*` or `.d+`, as the pair of
its digits' value and its count of fraction digits (the value is the
first over ten to the second). -/
def parseMantissa (s : String) : Option (Nat × Nat) :=
  match splitOnS '.' s with
  | [a] => if isDigits a.data then some (digitsVal a.data, 0) else none
  | [a, b] =>
    if isDigits a.data ∧ b = "" then some (digitsVal a.data, 0)
    else if a = "" ∧ isDigits b.data then some (digitsVal b.data, b.length)
    else if isDigits a.data ∧ isDigits b.data then
      some (digitsVal a.data * 10 ^ b.length + digitsVal b.data, b.length)
    else none
  | _ => none

/-- `pd.to_numeric(s, errors="coerce")` on one trimmed string field,
modelled for decimal notation with optional sign and exponent (the
special spellings `inf`/`nan` are not modelled); `none` is `NaN`. -/
def toNumeric (s : String) : Option Rat :=
  let (sg, rest) : Int × List Char :=
    match s.data with
    | '-' :: t => (-1, t)
    | '+' :: t => (1, t)
    | t => (1, t)
  match (splitOnChar 'e' (rest.map Char.toLower)).map String.mk with
  | [m] => (parseMantissa m).map (fun p => mkRat (sg * (p.1 : Int)) (10 ^ p.2))
  | [m, ex] =>
    match parseMantissa m, signedDigits ex.data with
    | some p, some e =>
      if 0 ≤ e then some (mkRat (sg * (p.1 : Int) * (10 : Int) ^ e.toNat) (10 ^ p.2))
      else some (mkRat (sg * (p.1 : Int)) (10 ^ (p.2 + (-e).toNat)))
    | _, _ => none
  | _ => none

/-! ## Text decoding (`path.read_text(encoding=enc, errors="replace")`) -/

/-- The Unicode replacement character `U+FFFD`. -/
def replChar : Char := Char.ofNat 0xFFFD

/-- A UTF-8 continuation byte. -/
def isCont (b : Nat) : Bool := 0x80 ≤ b && b ≤ 0xBF

/-- UTF-8 decoding with `errors="replace"`: a total function — every
maximal ill-formed subpart becomes one `U+FFFD`, so no byte sequence
fails to decode. -/
def utf8DecodeReplace : List Nat → List Char
  | [] => []
  | b :: bs =>
    if b < 0x80 then Char.ofNat b :: utf8DecodeReplace bs
    else if b < 0xC2 then replChar :: utf8DecodeReplace bs
    else if b < 0xE0 then
      match bs with
      | b1 :: bs1 =>
        if isCont b1 then Char.ofNat ((b - 0xC0) * 0x40 + (b1 - 0x80)) :: utf8DecodeReplace bs1
        else replChar :: utf8DecodeReplace (b1 :: bs1)
      | [] => [replChar]
    else if b < 0xF0 then
      match bs with
      | b1 :: bs1 =>
        if (if b == 0xE0 then 0xA0 else 0x80) ≤ b1 ∧ b1 ≤ (if b == 0xED then 0x9F else 0xBF) then
          match bs1 with
          | b2 :: bs2 =>
            if isCont b2 then
              Char.ofNat ((b - 0xE0) * 0x1000 + (b1 - 0x80) * 0x40 + (b2 - 0x80)) ::
                utf8DecodeReplace bs2
            else replChar :: utf8DecodeReplace (b2 :: bs2)
          | [] => [replChar]
        else replChar :: utf8DecodeReplace (b1 :: bs1)
      | [] => [replChar]
    else if b < 0xF5 then
      match bs with
      | b1 :: bs1 =>
        if (if b == 0xF0 then 0x90 else 0x80) ≤ b1 ∧ b1 ≤ (if b == 0xF4 then 0x8F else 0xBF) then
          match bs1 with
          | b2 :: bs2 =>
            if isCont b2 then
              match bs2 with
              | b3 :: bs3 =>
                if isCont b3 then
                  Char.ofNat ((b - 0xF0) * 0x40000 + (b1 - 0x80) * 0x1000 +
                      (b2 - 0x80) * 0x40 + (b3 - 0x80)) :: utf8DecodeReplace bs3
                else replChar :: utf8DecodeReplace (b3 :: bs3)
              | [] => [replChar]
            else replChar :: utf8DecodeReplace (b2 :: bs2)
          | [] => [replChar]
        else replChar :: utf8DecodeReplace (b1 :: bs1)
      | [] => [replChar]
    else replChar :: utf8DecodeReplace bs
termination_by bs => bs.length
decreasing_by all_goals (simp only [List.length_cons]; omega)

/-- The Windows-1252 decode table with `errors="replace"`: bytes
`0x80`–`0x9F` map through the cp1252 page (five of them undefined,
replaced), every other byte to the Latin-1 character of its value. -/
def cp1252Map (b : Nat) : Char :=
  if b == 0x80 then Char.ofNat 0x20AC else if b == 0x81 then replChar
  else if b == 0x82 then Char.ofNat 0x201A else if b == 0x83 then Char.ofNat 0x0192
  else if b == 0x84 then Char.ofNat 0x201E else if b == 0x85 then Char.ofNat 0x2026
  else if b == 0x86 then Char.ofNat 0x2020 else if b == 0x87 then Char.ofNat 0x2021
  else if b == 0x88 then Char.ofNat 0x02C6 else if b == 0x89 then Char.ofNat 0x2030
  else if b == 0x8A then Char.ofNat 0x0160 else if b == 0x8B then Char.ofNat 0x2039
  else if b == 0x8C then Char.ofNat 0x0152 else if b == 0x8D then replChar
  else if b == 0x8E then Char.ofNat 0x017D else if b == 0x8F then replChar
  else if b == 0x90 then replChar else if b == 0x91 then Char.ofNat 0x2018
  else if b == 0x92 then Char.ofNat 0x2019 else if b == 0x93 then Char.ofNat 0x201C
  else if b == 0x94 then Char.ofNat 0x201D else if b == 0x95 then Char.ofNat 0x2022
  else if b == 0x96 then Char.ofNat 0x2013 else if b == 0x97 then Char.ofNat 0x2014
  else if b == 0x98 then Char.ofNat 0x02DC else if b == 0x99 then Char.ofNat 0x2122
  else if b == 0x9A then Char.ofNat 0x0161 else if b == 0x9B then Char.ofNat 0x203A
  else if b == 0x9C then Char.ofNat 0x0153 else if b == 0x9D then replChar
  else if b == 0x9E then Char.ofNat 0x017E else if b == 0x9F then Char.ofNat 0x0178
  else Char.ofNat b

/-- Decoding the file's bytes under the fallback sequence's encoding with
index `enc` (0 = utf-8, 1 = cp1252, 2 = latin1), each with
`errors="replace"`, hence total. -/
def decodeBytes (enc : Nat) (bs : List Nat) : String :=
  match enc with
  | 0 => String.mk (utf8DecodeReplace bs)
  | 1 => String.mk (bs.map cp1252Map)
  | _ => String.mk (bs.map Char.ofNat)

/-- The encoding fallback loop of `Cleaner.fix_lines`: try
`read_text(encoding=enc, errors="replace")` for utf-8, cp1252, latin1 in
turn; an attempt fails only when reading the file itself raises (the
bytes are `none`), since `errors="replace"` makes every decode total.
Returns the decoded text with the index of the encoding that won, `none`
for the loop's `else` branch (every attempt raised). -/
def decodeLoop (bytes? : Option (List Nat)) : Option (String × Nat) :=
  match bytes?.map (decodeBytes 0) with
  | some t => some (t, 0)
  | none =>
    match bytes?.map (decodeBytes 1) with
    | some t => some (t, 1)
    | none =>
      match bytes?.map (decodeBytes 2) with
      | some t => some (t, 2)
      | none => none

/-! ## Line repair (`Cleaner.fix_lines`) -/

/-- A pandas `DataFrame` of string cells: the column labels and the rows. -/
structure Table where
  header : List String
  rows : List (List String)
deriving DecidableEq, Repr

/-- `pd.DataFrame()`: no columns, no rows. -/
def emptyTable : Table := ⟨[], []⟩

/-- The field-count repair branches of `Cleaner.fix_lines` on the split,
stripped parts of one line: 6 parts pass unchanged; 7 parts rejoin parts
4 and 5 with a hyphen and keep part 6; more than 7 keep the first 4,
hyphen-join parts 4 up to the last, and append the last; fewer than 6
are discarded. -/
def repairParts (parts : List String) : Option (List String) :=
  let n := parts.length
  if n = 6 then some parts
  else if n = 7 then
    some (parts.take 4 ++ [parts.getD 4 "" ++ "-" ++ parts.getD 5 ""] ++ [parts.getD 6 ""])
  else if 7 < n then
    some (parts.take 4 ++ [String.intercalate "-" ((parts.drop 4).dropLast), parts.getLastD ""])
  else none

/-- One data line of `Cleaner.fix_lines`: split on `|`, strip each part,
repair by field count, then discard the row when its second field
(the symbol) is empty after stripping. -/
def fixRow (ln : String) : Option (List String) :=
  let parts := (splitOnS '|' ln).map strip
  match repairParts parts with
  | none => none
  | some row => if strip (row.getD 1 "") = "" then none else some row

/-- `Cleaner.fix_lines` from the decoded text on: the first line, split on
`|` and stripped, gives at most six column labels; the remaining lines are
repaired row by row.  `pd.DataFrame(rows, columns=header)` raises a
column-count mismatch when rows are present but the header holds fewer
than six labels; that escaping exception is the `none` result. -/
def fix_lines_text (text : String) : Option Table :=
  match splitlines text with
  | [] => some emptyTable
  | first :: rest =>
    let header := ((splitOnS '|' first).map strip).take 6
    let rows := rest.filterMap fixRow
    if rows = [] ∨ header.length = 6 then some ⟨header, rows⟩ else none

/-- `Cleaner.fix_lines` whole: read the file's bytes (`none` when reading
raises), decode through the fallback loop (empty table when every attempt
raised), then repair the lines. -/
def fix_lines (bytes? : Option (List Nat)) : Option Table :=
  match decodeLoop bytes? with
  | none => some emptyTable
  | some (text, _) => fix_lines_text text

/-! ## Instrument filter (`Cleaner.is_equity_cusip`) -/

/-- `Cleaner.is_equity_cusip`: strip and uppercase, then require length at
least 8, first character `'0'` and the two characters at indices 6–7
equal to `"10"`. -/
def is_equity_cusip (cusip : String) : Bool :=
  let c := toUpperS (strip cusip)
  decide (8 ≤ c.length) && (c.data.take 1 == ['0']) && ((c.data.drop 6).take 2 == ['1', '0'])

/-! ## The per-file aggregation step (`Aggregator.run`, loop body) -/

/-- The required column labels (`req` in `Aggregator.run`). -/
def reqCols : List String :=
  ["CUSIP", "SYMBOL", "SETTLEMENT DATE", "QUANTITY (FAILS)", "PRICE"]

/-- `df[name]` for one row: the cell under the first column with that
label (the step below treats duplicated required labels as an error). -/
def getCell (header row : List String) (name : String) : String :=
  match header.indexOf? name with
  | some i => row.getD i ""
  | none => ""

/-- The `PRICE` condition of `Aggregator.run`:
`pd.to_numeric` succeeds and the value is non-zero
(`df["PRICE"].notna() & (df["PRICE"] != 0)`). -/
def priceOkCell (s : String) : Bool :=
  match toNumeric s with
  | some v => v != 0
  | none => false

/-- The `SETTLEMENT DATE` condition of `Aggregator.run`: the field parses
as `%Y%m%d` and the date is on or after 2009-07-01
(`NaT >= Timestamp` is false, so unparsable dates fail). -/
def dateOkCell (s : String) : Bool :=
  match parseDate s with
  | some d => dateLe ⟨2009, 7, 1⟩ d
  | none => false

/-- `df["PRICE"]` filter of `Aggregator.run`, applied only when the label
is present (when it is absent the required-column check later rejects the
whole file). -/
def priceFiltered (t : Table) : List (List String) :=
  if t.header.contains "PRICE" then
    t.rows.filter (fun r => priceOkCell (getCell t.header r "PRICE"))
  else t.rows

/-- The equity filter of `Aggregator.run` after the price filter
(`df["CUSIP"].apply(is_equity_cusip)`). -/
def cusipFiltered (t : Table) : List (List String) :=
  (priceFiltered t).filter (fun r => is_equity_cusip (getCell t.header r "CUSIP"))

/-- The settlement-date filter of `Aggregator.run` after the equity
filter. -/
def dateFiltered (t : Table) : List (List String) :=
  (cusipFiltered t).filter (fun r => dateOkCell (getCell t.header r "SETTLEMENT DATE"))

/-- The period key of a row: `offset_date` of its parsed settlement date. -/
def offsetKey (header row : List String) : Option Date :=
  (parseDate (getCell header row "SETTLEMENT DATE")).map offset_date

/-- One persisted output row (`out_cols = [DATE, SYMBOL, QUANTITY (FAILS),
PRICE]`): `DATE` is `strftime("%Y%m%d")` of the parsed settlement date,
`QUANTITY (FAILS)` and `PRICE` the coerced numeric values. -/
structure OutRow where
  date : String
  symbol : String
  quantity : Option Rat
  price : Rat
deriving DecidableEq, Repr

/-- The output projection of one surviving row. -/
def mkOutRow (header row : List String) : OutRow where
  date :=
    match parseDate (getCell header row "SETTLEMENT DATE") with
    | some d => fmtYmd d
    | none => ""
  symbol := getCell header row "SYMBOL"
  quantity := toNumeric (getCell header row "QUANTITY (FAILS)")
  price := (toNumeric (getCell header row "PRICE")).getD 0

/-- Remove the elements already seen, keeping first occurrences. -/
def dedupFirstAux {α : Type} [DecidableEq α] (seen : List α) : List α → List α
  | [] => []
  | x :: xs =>
    if seen.contains x then dedupFirstAux seen xs
    else x :: dedupFirstAux (x :: seen) xs

/-- Remove duplicates keeping each element's first occurrence. -/
def dedupFirst {α : Type} [DecidableEq α] (l : List α) : List α :=
  dedupFirstAux [] l

/-- Insert a date into a chronologically sorted list. -/
def insertDate (d : Date) : List Date → List Date
  | [] => [d]
  | x :: xs => if dateLe d x then d :: x :: xs else x :: insertDate d xs

/-- Sort dates chronologically (`groupby` yields its keys in sorted
order). -/
def sortDates (ds : List Date) : List Date :=
  ds.foldr insertDate []

/-- The per-period groups of `Aggregator.run`: the surviving rows grouped
by period key, keys in sorted order, each row projected onto the output
columns. -/
def groupsOf (t : Table) : List (Date × List OutRow) :=
  (sortDates (dedupFirst ((dateFiltered t).filterMap (offsetKey t.header)))).map
    (fun k =>
      (k, ((dateFiltered t).filter (fun r => offsetKey t.header r == some k)).map
        (mkOutRow t.header)))

/-- What one iteration of `Aggregator.run`'s loop leaves behind: whether
the input file was unlinked, and the per-period groups dispatched to the
archive writer. -/
structure StepResult where
  deleted : Bool
  groups : List (Date × List OutRow)
deriving DecidableEq, Repr

/-- One iteration of `Aggregator.run` over one input file's decoded text:
repair the lines (`none` when `fix_lines` raises); stop early —
unlinking the file — when the table is empty, a required column is
missing, or the equity or date filter leaves nothing; otherwise dispatch
the groups and unlink the file.  A required column label occurring more
than once makes the pandas column operations raise; that is modelled
conservatively as `none`. -/
def aggregateStep (content : String) : Option StepResult :=
  match fix_lines_text content with
  | none => none
  | some t =>
    if t.rows = [] then some ⟨true, []⟩
    else if reqCols.any (fun c => 2 ≤ t.header.count c) then none
    else if !(reqCols.all (t.header.contains ·)) then some ⟨true, []⟩
    else if cusipFiltered t = [] then some ⟨true, []⟩
    else if dateFiltered t = [] then some ⟨true, []⟩
    else some ⟨true, groupsOf t⟩

/-! ## The period-archive merge (`Aggregator.run`, per-group block)

The archive's csv is re-read with `pd.read_csv(..., header=None)`, whose
per-column type inference turns an all-integer column into integers, a
numeric-or-empty column into floats with `NaN` for empties, and any other
column into strings with `NaN` for empties.  A cell is therefore a Python
value: a string, a number (Python `==` identifies integer and float
values, so one exact rational) or a missing value (`drop_duplicates`
treats `NaN`s as equal). -/

/-- A pandas cell as `concat`/`drop_duplicates` compares it. -/
inductive PyVal where
  | pstr (s : String)
  | pnum (q : Rat)
  | pnan
deriving DecidableEq, Repr

/-- An integer field: optional sign, digits only. -/
def isIntField (s : String) : Bool :=
  (signedDigits s.data).isSome

/-- The integer value of an integer field. -/
def intFieldVal (s : String) : Int :=
  (signedDigits s.data).getD 0

/-- `pd.read_csv` column type inference: all-integer, else
numeric-with-missing (floats), else strings-with-missing. -/
def inferColumn (vals : List String) : List PyVal :=
  if vals.all isIntField then vals.map (fun v => .pnum (intFieldVal v : Rat))
  else if vals.all (fun v => v == "" || (toNumeric v).isSome) then
    vals.map (fun v => if v = "" then .pnan else .pnum ((toNumeric v).getD 0))
  else vals.map (fun v => if v = "" then .pnan else .pstr v)

/-- `pd.read_csv(zf.open(csv_name), header=None)` on the archive's lines.
Archives written by this pipeline always carry four comma-separated
fields per line; inference runs per column. -/
def readCsv (lines : List String) : List (List PyVal) :=
  let cells := lines.map (fun ln => splitOnS ',' ln)
  let cols := (List.range 4).map (fun i => inferColumn (cells.map (fun r => r.getD i "")))
  (List.range lines.length).map (fun j => cols.map (fun col => col.getD j .pnan))

/-- The cells of a freshly produced output row as pandas holds them:
`DATE` and `SYMBOL` are strings, the coerced quantity a float or `NaN`,
the price a float. -/
def outRowVals (r : OutRow) : List PyVal :=
  [.pstr r.date, .pstr r.symbol,
   (match r.quantity with
    | some q => .pnum q
    | none => .pnan),
   .pnum r.price]

/-- How the pre-existing archive presented itself to the merge block. -/
inductive ArchiveRead where
  | noZip
  | zipUnreadable
  | csvMissing
  | csvRows (lines : List String)
deriving DecidableEq, Repr

/-- The merged row set: when the archive existed and its csv was read,
`pd.concat([old, data]).drop_duplicates()` (first occurrences kept);
when the zip did not exist, its csv record was absent, or reading raised
(`except: pass`), the new rows alone. -/
def mergeData (ar : ArchiveRead) (newRows : List OutRow) : List (List PyVal) :=
  match ar with
  | .csvRows lines => dedupFirst (readCsv lines ++ newRows.map outRowVals)
  | _ => newRows.map outRowVals

/-- `str(i)` for a Python integer. -/
def intStr (i : Int) : String := toString i

/-- Round the fraction `num / den` to the nearest natural number, ties to
even (`%.2f` formatting rounds half to even). -/
def roundHalfEven (num den : Nat) : Nat :=
  let q := num / den
  let r := num % den
  if 2 * r < den then q
  else if den < 2 * r then q + 1
  else if q % 2 = 0 then q else q + 1

/-- `f"{q:.2f}"`: the value with exactly two decimal digits. -/
def fmt2 (q : Rat) : String :=
  let sgn := if q.num < 0 then "-" else ""
  let n := roundHalfEven (q.num.natAbs * 100) q.den
  sgn ++ toString (n / 100) ++ "." ++ zfill 2 (n % 100)

/-- `float(v)` as the formatter applies it to a quantity cell read back
as a string: Python `float` of a stripped numeric string, raising
(`none`) otherwise. -/
def pyFloat (s : String) : Option Rat := toNumeric (strip s)

/-- The quantity rendering of the merge block: empty for missing, a bare
integer when the value has no fractional part, else two decimals; a
string cell goes through `float()` first and raises when non-numeric. -/
def qtyStr (v : PyVal) : Option String :=
  match v with
  | .pnan => some ""
  | .pnum q => some (if q.den = 1 then intStr q.num else fmt2 q)
  | .pstr s => (pyFloat s).map (fun q => if q.den = 1 then intStr q.num else fmt2 q)

/-- The price rendering of the merge block: empty for missing, else
always two decimals; `f"{v:.2f}"` raises on a string cell. -/
def priceStr (v : PyVal) : Option String :=
  match v with
  | .pnan => some ""
  | .pnum q => some (fmt2 q)
  | .pstr _ => none

/-- `f"{v}"` on a `DATE`/`SYMBOL` cell: the string itself, the digits of
an integer.  (A non-integer number or a missing value never reaches this
position in an archive this pipeline wrote.) -/
def pyStr (v : PyVal) : String :=
  match v with
  | .pstr s => s
  | .pnum q => if q.den = 1 then intStr q.num else toString q
  | .pnan => "nan"

/-- One csv line of the rewritten archive,
`f"{DATE},{SYMBOL},{q_str},{p_str}"`; `none` when a rendering raised. -/
def formatRow (r : List PyVal) : Option String :=
  match qtyStr (r.getD 2 .pnan), priceStr (r.getD 3 .pnan) with
  | some qs, some ps =>
    some (pyStr (r.getD 0 .pnan) ++ "," ++ pyStr (r.getD 1 .pnan) ++ "," ++ qs ++ "," ++ ps)
  | _, _ => none

/-- Format each row in turn, stopping at the first raising row. -/
def formatAll : List (List PyVal) → Option (List String)
  | [] => some []
  | r :: rs =>
    match formatRow r, formatAll rs with
    | some ln, some lns => some (ln :: lns)
    | _, _ => none

/-- The lines the merge block writes back into the archive's csv record. -/
def writtenLines (ar : ArchiveRead) (newRows : List OutRow) : Option (List String) :=
  formatAll (mergeData ar newRows)

/-- The csv line of a freshly produced output row. -/
def outLine (r : OutRow) : String :=
  r.date ++ "," ++ r.symbol ++ ","
    ++ (match r.quantity with
        | none => ""
        | some q => if q.den = 1 then intStr q.num else fmt2 q)
    ++ "," ++ fmt2 r.price

/-! ## File names seen by the run (`Aggregator.run` loop, `Unzipper.run`,
`SECFTDPipeline.run` cleanup) -/

/-- The position of the last `'.'` of a character list. -/
def lastDot : List Char → Option Nat
  | [] => none
  | c :: t =>
    match lastDot t with
    | some j => some (j + 1)
    | none => if c == '.' then some 0 else none

/-- `pathlib.Path(name).suffix`: the final dot-suffix of the name, empty
when there is no dot, the dot leads, or the dot trails. -/
def pathSuffix (name : String) : String :=
  let cs := name.data
  match lastDot cs with
  | none => ""
  | some i => if 0 < i ∧ i + 1 < cs.length then String.mk (cs.drop i) else ""

/-- The `Aggregator.run` loop reads and unlinks a file exactly when
`p.suffix.lower() in (".txt", "", ".csv")`. -/
def aggConsumes (name : String) : Bool :=
  [".txt", "", ".csv"].contains (toLowerS (pathSuffix name))

/-- The end-of-run cleanup of `SECFTDPipeline.run` unlinks a file exactly
when `f.suffix.lower() in (".txt", ".csv")`. -/
def cleanupDeletes (name : String) : Bool :=
  [".txt", ".csv"].contains (toLowerS (pathSuffix name))

/-- Python `str.startswith` on character lists (the first argument is
the candidate leading piece). -/
def startsWithL : List Char → List Char → Bool
  | [], _ => true
  | _ :: _, [] => false
  | p :: ps, c :: t => (c == p) && startsWithL ps t

/-- `Unzipper.run` unlinks a file exactly when it matched `*.zip` and its
lowered name starts with one of the source prefixes
`("cnsfails", "cnsp_sec")`. -/
def unzipperDeletes (name : String) : Bool :=
  (name.data.drop (name.length - 4) == ['.', 'z', 'i', 'p'])
    && (startsWithL "cnsfails".data (name.data.map Char.toLower)
        || startsWithL "cnsp_sec".data (name.data.map Char.toLower))

/-- A per-period archive name, `YYYYMMDD.zip`. -/
def isPeriodArchiveName (name : String) : Bool :=
  match name.data with
  | [y1, y2, y3, y4, m1, m2, d1, d2, '.', 'z', 'i', 'p'] =>
    [y1, y2, y3, y4, m1, m2, d1, d2].all Char.isDigit
  | _ => false

/-- The files still on disk when `SECFTDPipeline.run` ends, starting from
the files present before the run (`initial`) plus the archives the
aggregation wrote (`written`): the unzip pass deletes matched source
zips, the aggregation consumes its loose input files, and the final
cleanup deletes leftover loose text/table files. -/
def afterRun (initial written : List String) : List String :=
  (((initial.filter (fun f => !unzipperDeletes f)).filter (fun f => !aggConsumes f))
      ++ written).filter (fun f => !cleanupDeletes f)

/-- The six column labels of a well-formed source file's header line. -/
def stdHeader : List String :=
  ["CUSIP", "SYMBOL", "SETTLEMENT DATE", "QUANTITY (FAILS)", "DESCRIPTION", "PRICE"]

/-- A minimal well-formed input file: the standard header and one
repairable equity row. -/
def sampleContent : String :=
  "CUSIP|SYMBOL|SETTLEMENT DATE|QUANTITY (FAILS)|DESCRIPTION|PRICE\n01234510|ABC|20200110|1500|New Issue|10.00"

end SecFtd

namespace SecFtd

/-! ## Helper lemmas -/

theorem formatRow_outRowVals (r : OutRow) : formatRow (outRowVals r) = some (outLine r) := by
  rcases r with ⟨d, s, q, p⟩
  cases q <;> rfl

theorem formatAll_outRowVals (l : List OutRow) :
    formatAll (l.map outRowVals) = some (l.map outLine) := by
  induction l with
  | nil => rfl
  | cons x xs ih => simp [formatAll, formatRow_outRowVals, ih]

theorem digit_toLower {c : Char} (h : c.isDigit = true) : c.toLower = c := by
  simp [Char.isDigit] at h
  have h2 : c.toNat ≤ 57 := by
    have := h.2
    simp [Char.le_def] at this ⊢
    exact this
  simp [Char.toLower]
  omega

theorem digit_ne_c {c : Char} (h : c.isDigit = true) : c ≠ 'c' := by
  rintro rfl
  simp at h

theorem mem_dateFiltered {t : Table} {r : List String} (h : r ∈ dateFiltered t) :
    r ∈ t.rows
      ∧ (t.header.contains "PRICE" = true → priceOkCell (getCell t.header r "PRICE") = true)
      ∧ is_equity_cusip (getCell t.header r "CUSIP") = true
      ∧ dateOkCell (getCell t.header r "SETTLEMENT DATE") = true := by
  rcases List.mem_filter.mp h with ⟨h2, hdate⟩
  rcases List.mem_filter.mp h2 with ⟨h3, hcusip⟩
  unfold priceFiltered at h3
  by_cases hp : t.header.contains "PRICE" = true
  · rw [if_pos hp] at h3
    rcases List.mem_filter.mp h3 with ⟨h4, hprice⟩
    exact ⟨h4, fun _ => hprice, hcusip, hdate⟩
  · rw [if_neg hp] at h3
    exact ⟨h3, fun hc => absurd hc hp, hcusip, hdate⟩

/-! ## The claims -/

/-- C2: for every non-header input line, the line repairer splits on the
pipe delimiter and strips each part; with exactly 6 parts it emits the
row unchanged, with exactly 7 parts it rejoins parts 4 and 5 with a
hyphen and keeps the last part, with more than 7 parts it keeps the
first 4 fields, hyphen-joins fields 4 up to but not including the last,
and appends the last, with fewer than 6 parts it discards the line; a
repaired row whose second (symbol) field is empty after stripping is
discarded; and the two spec examples repair as stated. -/
theorem C2_line_repair :
    (∀ ln p0 p1 p2 p3 p4 p5 : String,
      (splitOnS '|' ln).map strip = [p0, p1, p2, p3, p4, p5] →
      fixRow ln = if strip p1 = "" then none else some [p0, p1, p2, p3, p4, p5])
    ∧ (∀ ln p0 p1 p2 p3 p4 p5 p6 : String,
      (splitOnS '|' ln).map strip = [p0, p1, p2, p3, p4, p5, p6] →
      fixRow ln = if strip p1 = "" then none
        else some [p0, p1, p2, p3, p4 ++ "-" ++ p5, p6])
    ∧ (∀ ln : String, ∀ parts : List String,
      (splitOnS '|' ln).map strip = parts → 7 < parts.length →
      fixRow ln = if strip (parts.getD 1 "") = "" then none
        else some (parts.take 4
          ++ [String.intercalate "-" ((parts.drop 4).dropLast), parts.getLastD ""]))
    ∧ (∀ ln : String, ∀ parts : List String,
      (splitOnS '|' ln).map strip = parts → parts.length < 6 → fixRow ln = none)
    ∧ fixRow "A|B|20200115|100|foo|bar|9.50"
        = some ["A", "B", "20200115", "100", "foo-bar", "9.50"]
    ∧ fixRow "A|B|20200115|100|x|y|z|9.50"
        = some ["A", "B", "20200115", "100", "x-y-z", "9.50"] := by
  refine ⟨?_, ?_, ?_, ?_, by decide, by decide⟩
  · intro ln p0 p1 p2 p3 p4 p5 h
    simp only [fixRow, h]
    rfl
  · intro ln p0 p1 p2 p3 p4 p5 p6 h
    simp only [fixRow, h]
    rfl
  · intro ln parts h h7
    obtain ⟨p0, p1, p2, p3, t, rfl⟩ :
        ∃ p0 p1 p2 p3 t, parts = p0 :: p1 :: p2 :: p3 :: t := by
      rcases parts with _ | ⟨p0, _ | ⟨p1, _ | ⟨p2, _ | ⟨p3, t⟩⟩⟩⟩ <;>
        first
          | exact ⟨_, _, _, _, _, rfl⟩
          | simp at h7
    simp only [List.length_cons] at h7
    simp only [fixRow, h, repairParts, List.length_cons]
    rw [if_neg (by omega), if_neg (by omega), if_pos (by omega)]
    rfl
  · intro ln parts h h6
    simp only [fixRow, h, repairParts]
    rw [if_neg (by omega), if_neg (by omega), if_neg (by omega)]

/-- C2 witness: a concrete 6-part line keeps its stripped parts. -/
theorem C2_line_repair_applied :
    fixRow "a|b|c|d|e|f" = if strip "b" = "" then none
      else some ["a", "b", "c", "d", "e", "f"] :=
  C2_line_repair.1 "a|b|c|d|e|f" "a" "b" "c" "d" "e" "f" (by decide)

/-- C3: the period mapper sends a settlement date with day at most 15 to
the last calendar day of its month, and a later date to the 15th of the
following month; in particular 2020-01-15 maps to 2020-01-31, 2020-01-16
to 2020-02-15 and 2020-01-31 to 2020-02-15. -/
theorem C3_period_mapper :
    (∀ d : Date, d.day ≤ 15 →
      offset_date d = ⟨d.year, d.month, daysInMonth d.year d.month⟩)
    ∧ (∀ d : Date, 15 < d.day → d.month ≠ 12 →
      offset_date d = ⟨d.year, d.month + 1, 15⟩)
    ∧ (∀ d : Date, 15 < d.day → d.month = 12 →
      offset_date d = ⟨d.year + 1, 1, 15⟩)
    ∧ offset_date ⟨2020, 1, 15⟩ = ⟨2020, 1, 31⟩
    ∧ offset_date ⟨2020, 1, 16⟩ = ⟨2020, 2, 15⟩
    ∧ offset_date ⟨2020, 1, 31⟩ = ⟨2020, 2, 15⟩ := by
  refine ⟨?_, ?_, ?_, by decide, by decide, by decide⟩
  · intro d h
    rcases d with ⟨y, m, dd⟩
    simp only [offset_date] at *
    rw [if_pos h]
    simp only [monthEnd0]
    split
    · next heq => simp_all
    · rfl
  · intro d h hm
    rcases d with ⟨y, m, dd⟩
    simp only [offset_date] at *
    rw [if_neg (by omega)]
    simp only [monthBegin1, replaceDay]
    rw [if_neg (by simpa using hm)]
  · intro d h hm
    rcases d with ⟨y, m, dd⟩
    simp only at hm
    subst hm
    simp only [offset_date] at *
    rw [if_neg (by omega)]
    rfl

/-- C3 witness: a mid-February date of a leap year maps to February 29. -/
theorem C3_period_mapper_applied : offset_date ⟨2020, 2, 10⟩ = ⟨2020, 2, 29⟩ :=
  C3_period_mapper.1 ⟨2020, 2, 10⟩ (by decide)

/-- C5: the instrument filter accepts a string exactly when, after
stripping and uppercasing, it has length at least 8, its first character
is `'0'` and the two characters at indices 6–7 are `"10"`; `"01234510"`
passes while `"11234510"` and `"0123451X"` fail. -/
theorem C5_instrument_filter :
    (∀ s : String,
      is_equity_cusip s = true ↔
        (8 ≤ (toUpperS (strip s)).length
          ∧ (toUpperS (strip s)).data.head? = some '0'
          ∧ ((toUpperS (strip s)).data.drop 6).take 2 = ['1', '0']))
    ∧ is_equity_cusip "01234510" = true
    ∧ is_equity_cusip "11234510" = false
    ∧ is_equity_cusip "0123451X" = false := by
  refine ⟨fun s => ?_, by decide, by decide, by decide⟩
  simp only [is_equity_cusip, Bool.and_eq_true, decide_eq_true_eq, beq_iff_eq]
  constructor
  · rintro ⟨⟨h1, h2⟩, h3⟩
    refine ⟨h1, ?_, h3⟩
    cases hd : (toUpperS (strip s)).data with
    | nil => rw [hd] at h2; simp at h2
    | cons a t => rw [hd] at h2; simp at h2; simp [h2]
  · rintro ⟨h1, h2, h3⟩
    refine ⟨⟨h1, ?_⟩, h3⟩
    cases hd : (toUpperS (strip s)).data with
    | nil => rw [hd] at h2; simp at h2
    | cons a t => rw [hd] at h2; simp at h2; simp [h2]

/-- C5 witness: a further concrete identifier with the accepted shape. -/
theorem C5_instrument_filter_applied :
    8 ≤ (toUpperS (strip "00000010")).length
      ∧ (toUpperS (strip "00000010")).data.head? = some '0'
      ∧ ((toUpperS (strip "00000010")).data.drop 6).take 2 = ['1', '0'] :=
  (C5_instrument_filter.1 "00000010").mp (by decide)

/-- C8: when the pre-existing archive is unreadable or its expected csv
record is absent, the merge treats it exactly as a missing archive
(start from empty) and still formats and writes every new row. -/
theorem C8_unreadable_archive :
    ∀ newRows : List OutRow,
      mergeData .zipUnreadable newRows = mergeData .noZip newRows
      ∧ mergeData .csvMissing newRows = mergeData .noZip newRows
      ∧ writtenLines .zipUnreadable newRows = some (newRows.map outLine)
      ∧ writtenLines .csvMissing newRows = some (newRows.map outLine) := by
  intro newRows
  exact ⟨rfl, rfl, formatAll_outRowVals newRows, formatAll_outRowVals newRows⟩

/-- C8 witness: one concrete new row is written despite an unreadable
archive. -/
theorem C8_unreadable_archive_applied :
    mergeData .zipUnreadable [(⟨"20200110", "ABC", some 1500, 10⟩ : OutRow)]
      = mergeData .noZip [(⟨"20200110", "ABC", some 1500, 10⟩ : OutRow)] :=
  (C8_unreadable_archive [⟨"20200110", "ABC", some 1500, 10⟩]).1

/-- C10: the decode fallback of the line repairer always succeeds on its
first attempt — utf-8 with `errors="replace"` decodes every byte
sequence, so cp1252 and latin1 are never consulted — and the
empty-table branch is reached exactly when reading the file raised. -/
theorem C10_decode_first_attempt :
    (∀ bs : List Nat, decodeLoop (some bs) = some (String.mk (utf8DecodeReplace bs), 0))
    ∧ decodeLoop none = none
    ∧ fix_lines none = some emptyTable
    ∧ (∀ bytes? : Option (List Nat), decodeLoop bytes? = none → bytes? = none) := by
  refine ⟨fun bs => rfl, rfl, rfl, fun bytes? h => ?_⟩
  cases bytes? with
  | none => rfl
  | some bs => exact absurd h (by simp [decodeLoop])

/-- C10 witness: the decode-failure branch at the read-failure input. -/
theorem C10_decode_first_attempt_applied : (none : Option (List Nat)) = none :=
  C10_decode_first_attempt.2.2.2 none rfl

/-- C1: the merge into a period archive is not idempotent as claimed.
A first merge of the row `DATE="20200110", SYMBOL="ABC", QUANTITY=1500,
PRICE=10` writes the line `20200110,ABC,1500,10.00`; re-reading that
archive parses the all-digit `DATE` field back as the integer
`20200110`, while the re-supplied identical row carries `DATE` as the
string `"20200110"`, so `drop_duplicates` keeps both: the row count
doubles to 2 and the rewritten archive holds two identical text lines. -/
theorem C1_merge_duplicates_resupplied_rows :
    writtenLines .noZip [(⟨"20200110", "ABC", some 1500, 10⟩ : OutRow)]
        = some ["20200110,ABC,1500,10.00"]
    ∧ mergeData (.csvRows ["20200110,ABC,1500,10.00"])
          [(⟨"20200110", "ABC", some 1500, 10⟩ : OutRow)]
        = [[.pnum 20200110, .pstr "ABC", .pnum 1500, .pnum 10],
           [.pstr "20200110", .pstr "ABC", .pnum 1500, .pnum 10]]
    ∧ (mergeData (.csvRows ["20200110,ABC,1500,10.00"])
          [(⟨"20200110", "ABC", some 1500, 10⟩ : OutRow)]).length = 2
    ∧ writtenLines (.csvRows ["20200110,ABC,1500,10.00"])
          [(⟨"20200110", "ABC", some 1500, 10⟩ : OutRow)]
        = some ["20200110,ABC,1500,10.00", "20200110,ABC,1500,10.00"] := by
  refine ⟨?_, ?_, ?_, ?_⟩ <;> decide

/-- C6 counterexample: the line repairer does raise.  When the header
line splits into fewer than six labels while a data line repairs to six
fields, `pd.DataFrame(rows, columns=header)` raises a column-count
mismatch that escapes to the caller (`none` in the model), so the claim
"returns a table without raising ... including inputs whose first line
splits into fewer than six names while some later line repairs to six
fields" is false at the input `"A|B\na|b|c|d|e|f"`. -/
theorem C6_header_mismatch_raises :
    fix_lines_text "A|B\na|b|c|d|e|f" = none := by decide

/-- C6 amended: the line repairer returns a table without raising
whenever reading failed (empty table), the input is empty, the header
line splits into at least six parts, or no data line survives repair;
only the header-shorter-than-six-with-surviving-rows case raises. -/
theorem C6_no_raise_amended :
    (∀ bytes? : Option (List Nat), bytes? = none → fix_lines bytes? = some emptyTable)
    ∧ fix_lines_text "" = some emptyTable
    ∧ (∀ text first rest, splitlines text = first :: rest →
        6 ≤ (splitOnS '|' first).length →
        fix_lines_text text
          = some ⟨((splitOnS '|' first).map strip).take 6, rest.filterMap fixRow⟩)
    ∧ (∀ text first rest, splitlines text = first :: rest →
        rest.filterMap fixRow = [] →
        fix_lines_text text = some ⟨((splitOnS '|' first).map strip).take 6, []⟩) := by
  refine ⟨?_, rfl, ?_, ?_⟩
  · intro bytes? h
    subst h
    rfl
  · intro text first rest h h6
    simp only [fix_lines_text, h]
    rw [if_pos]
    right
    rw [List.length_take, List.length_map]
    exact Nat.min_eq_left h6
  · intro text first rest h hrows
    simp [fix_lines_text, h, hrows]

/-- C6 witness: a concrete six-label header with one unrecoverable data
line yields a table. -/
theorem C6_no_raise_amended_applied :
    fix_lines_text "A|B|C|D|E|F\nx|y"
      = some ⟨["A", "B", "C", "D", "E", "F"], []⟩ :=
  C6_no_raise_amended.2.2.1 "A|B|C|D|E|F\nx|y" "A|B|C|D|E|F" ["x|y"] (by decide) (by decide)

/-- C7: whenever one iteration of the aggregator's per-file loop
completes, the input file has been unlinked — in the empty-table branch,
the missing-required-column branch, the empty-after-filters branches and
the full dispatch branch alike. -/
theorem C7_input_file_deleted :
    ∀ (content : String) (res : StepResult),
      aggregateStep content = some res → res.deleted = true := by
  intro content res h
  unfold aggregateStep at h
  split at h
  · exact absurd h (by simp)
  · split at h
    · cases h; rfl
    · split at h
      · exact absurd h (by simp)
      · split at h
        · cases h; rfl
        · split at h
          · cases h; rfl
          · split at h
            · cases h; rfl
            · cases h; rfl

/-- C7 witness: the empty-input iteration completes with the file
deleted. -/
theorem C7_input_file_deleted_applied : (⟨true, []⟩ : StepResult).deleted = true :=
  C7_input_file_deleted "" ⟨true, []⟩ rfl

/-- C4: every output row dispatched to a period archive comes from a
repaired row whose `PRICE` coerced to a present, non-zero number and
whose `SETTLEMENT DATE` parsed as `%Y%m%d` to a date on or after
2009-07-01, so a row violating either condition reaches no archive; the
survival filters never consult the quantity field, and a quantity that
fails coercion becomes a missing value in the retained output row. -/
theorem C4_row_survival :
    (∀ (content : String) (res : StepResult),
      aggregateStep content = some res →
      ∀ g ∈ res.groups, ∀ orow ∈ g.2,
        ∃ t r, fix_lines_text content = some t ∧ r ∈ t.rows
          ∧ orow = mkOutRow t.header r
          ∧ (∃ v : Rat, toNumeric (getCell t.header r "PRICE") = some v ∧ v ≠ 0)
          ∧ (∃ d : Date, parseDate (getCell t.header r "SETTLEMENT DATE") = some d
              ∧ dateLe ⟨2009, 7, 1⟩ d = true))
    ∧ (∀ c s dt q q' de p : String,
      (dateFiltered ⟨stdHeader, [[c, s, dt, q, de, p]]⟩).length
        = (dateFiltered ⟨stdHeader, [[c, s, dt, q', de, p]]⟩).length)
    ∧ (∀ c s dt q de p : String, toNumeric q = none →
      (mkOutRow stdHeader [c, s, dt, q, de, p]).quantity = none) := by
  refine ⟨?_, ?_, ?_⟩
  · intro content res h g hg orow ho
    unfold aggregateStep at h
    split at h
    · exact absurd h (by simp)
    · rename_i t heq
      split at h
      · cases h; exact absurd hg (by simp)
      · split at h
        · exact absurd h (by simp)
        · split at h
          · cases h; exact absurd hg (by simp)
          · rename_i hreq
            split at h
            · cases h; exact absurd hg (by simp)
            · split at h
              · cases h; exact absurd hg (by simp)
              · cases h
                rcases List.mem_map.mp hg with ⟨k, _hk, rfl⟩
                rcases List.mem_map.mp ho with ⟨r, hr, rfl⟩
                rcases List.mem_filter.mp hr with ⟨hrd, _hoff⟩
                obtain ⟨hmem, hpf, _hcus, hdok⟩ := mem_dateFiltered hrd
                have hall : (reqCols.all fun c => t.header.contains c) = true := by
                  cases hx : reqCols.all fun c => t.header.contains c
                  · rw [hx] at hreq; simp at hreq
                  · rfl
                have hcontains : t.header.contains "PRICE" = true :=
                  List.all_eq_true.mp hall "PRICE" (by simp [reqCols])
                have hp := hpf hcontains
                have hv : ∃ v : Rat,
                    toNumeric (getCell t.header r "PRICE") = some v ∧ v ≠ 0 := by
                  unfold priceOkCell at hp
                  cases htn : toNumeric (getCell t.header r "PRICE") with
                  | none => rw [htn] at hp; simp at hp
                  | some v =>
                    rw [htn] at hp
                    simp at hp
                    exact ⟨v, rfl, hp⟩
                have hd : ∃ d : Date,
                    parseDate (getCell t.header r "SETTLEMENT DATE") = some d
                      ∧ dateLe ⟨2009, 7, 1⟩ d = true := by
                  unfold dateOkCell at hdok
                  cases htd : parseDate (getCell t.header r "SETTLEMENT DATE") with
                  | none => rw [htd] at hdok; simp at hdok
                  | some d =>
                    rw [htd] at hdok
                    exact ⟨d, rfl, hdok⟩
                exact ⟨t, r, heq, hmem, rfl, hv, hd⟩
  · intro c s dt q q' de p
    have key : ∀ q0 : String,
        dateFiltered ⟨stdHeader, [[c, s, dt, q0, de, p]]⟩
          = if priceOkCell p && is_equity_cusip c && dateOkCell dt then
              [[c, s, dt, q0, de, p]] else [] := by
      intro q0
      have g1 : getCell stdHeader [c, s, dt, q0, de, p] "PRICE" = p := rfl
      have g2 : getCell stdHeader [c, s, dt, q0, de, p] "CUSIP" = c := rfl
      have g3 : getCell stdHeader [c, s, dt, q0, de, p] "SETTLEMENT DATE" = dt := rfl
      have hcont : stdHeader.contains "PRICE" = true := by decide
      cases hp : priceOkCell p <;> cases hc : is_equity_cusip c <;>
        cases hd : dateOkCell dt <;>
          simp [dateFiltered, cusipFiltered, priceFiltered, List.filter_cons,
            g1, g2, g3, hp, hc, hd, hcont] <;>
            try decide
    rw [key q, key q']
    split <;> rfl
  · intro c s dt q de p h
    exact h

/-- C4 witness: the sample file's single output row, with its price and
settlement-date facts. -/
theorem C4_row_survival_applied :
    ∃ t r, fix_lines_text sampleContent = some t ∧ r ∈ t.rows
      ∧ (⟨"20200110", "ABC", some 1500, 10⟩ : OutRow) = mkOutRow t.header r
      ∧ (∃ v : Rat, toNumeric (getCell t.header r "PRICE") = some v ∧ v ≠ 0)
      ∧ (∃ d : Date, parseDate (getCell t.header r "SETTLEMENT DATE") = some d
          ∧ dateLe ⟨2009, 7, 1⟩ d = true) :=
  C4_row_survival.1 sampleContent
    ⟨true, [(⟨2020, 1, 31⟩, [⟨"20200110", "ABC", some 1500, 10⟩])]⟩ (by decide)
    (⟨2020, 1, 31⟩, [⟨"20200110", "ABC", some 1500, 10⟩]) (by decide)
    ⟨"20200110", "ABC", some 1500, 10⟩ (by decide)

theorem startsWithL_c_false {ps t : List Char} {c : Char} (h : c.isDigit = true) :
    startsWithL ('c' :: ps) (c.toLower :: t) = false := by
  simp only [startsWithL]
  rw [digit_toLower h, beq_eq_false_iff_ne.mpr (digit_ne_c h)]
  rfl

theorem period_archive_name_spared (name : String)
    (h : isPeriodArchiveName name = true) :
    unzipperDeletes name = false ∧ aggConsumes name = false
      ∧ cleanupDeletes name = false := by
  obtain ⟨cs⟩ := name
  unfold isPeriodArchiveName at h
  split at h
  · rename_i y1 y2 y3 y4 m1 m2 d1 d2 heq
    have hcs : cs = [y1, y2, y3, y4, m1, m2, d1, d2, '.', 'z', 'i', 'p'] := heq
    subst hcs
    simp only [List.all_cons, List.all_nil, Bool.and_eq_true] at h
    obtain ⟨h1, -⟩ := h
    refine ⟨?_, rfl, rfl⟩
    show (true && (startsWithL "cnsfails".data
        ([y1, y2, y3, y4, m1, m2, d1, d2, '.', 'z', 'i', 'p'].map Char.toLower)
      || startsWithL "cnsp_sec".data
        ([y1, y2, y3, y4, m1, m2, d1, d2, '.', 'z', 'i', 'p'].map Char.toLower))) = false
    rw [Bool.true_and]
    rw [show ("cnsfails".data = 'c' :: ['n', 's', 'f', 'a', 'i', 'l', 's']) from rfl]
    rw [show ("cnsp_sec".data = 'c' :: ['n', 's', 'p', '_', 's', 'e', 'c']) from rfl]
    rw [show ([y1, y2, y3, y4, m1, m2, d1, d2, '.', 'z', 'i', 'p'].map Char.toLower
        = y1.toLower :: [y2, y3, y4, m1, m2, d1, d2, '.', 'z', 'i', 'p'].map Char.toLower)
      from rfl]
    rw [startsWithL_c_false h1, startsWithL_c_false h1]
    rfl
  · exact absurd h (by simp)

/-- C9: no step of the run deletes a period archive: the aggregation
loop consumes only names with suffix `.txt`, `.csv` or none, the
end-of-run cleanup only `.txt`/`.csv` names, the unzip pass only source
zips with the known prefixes, so every `YYYYMMDD.zip` archive present
before the run or written during it is still on disk when the run
ends. -/
theorem C9_period_archives_never_deleted :
    (∀ name : String, toLowerS (pathSuffix name) = ".zip" →
      aggConsumes name = false ∧ cleanupDeletes name = false)
    ∧ (∀ name : String, isPeriodArchiveName name = true →
      unzipperDeletes name = false ∧ aggConsumes name = false
        ∧ cleanupDeletes name = false)
    ∧ (∀ (initial written : List String) (name : String),
      isPeriodArchiveName name = true → name ∈ initial ∨ name ∈ written →
      name ∈ afterRun initial written) := by
  refine ⟨?_, fun name h => period_archive_name_spared name h, ?_⟩
  · intro name h
    unfold aggConsumes cleanupDeletes
    rw [h]
    exact ⟨by decide, by decide⟩
  · intro initial written name h hin
    obtain ⟨hu, ha, hc⟩ := period_archive_name_spared name h
    unfold afterRun
    rw [List.mem_filter]
    refine ⟨?_, by simp [hc]⟩
    rw [List.mem_append]
    rcases hin with hi | hw
    · left
      rw [List.mem_filter]
      refine ⟨?_, by simp [ha]⟩
      rw [List.mem_filter]
      exact ⟨hi, by simp [hu]⟩
    · right
      exact hw

/-- C9 witness: the archive name `20200131.zip` is spared by every
deleting step. -/
theorem C9_period_archives_never_deleted_applied :
    unzipperDeletes "20200131.zip" = false ∧ aggConsumes "20200131.zip" = false
      ∧ cleanupDeletes "20200131.zip" = false :=
  C9_period_archives_never_deleted.2.1 "20200131.zip" (by decide)

end SecFtd
